import Mathlib

/-!
# Verification of the everping execution pipeline

A shallow embedding of the core of `app/main.py`, `app/executor.py` and the
data model of `app/models.py`: the run claim step, the zombie sweep, the
reentrancy mutex, the single-run execution engine, the monitor-output parser,
the deadline trigger evaluator, the holiday gate and the alert-suppression
engine.  Database tables are lists of row structures, wall-clock reads are
threaded explicitly as integer seconds, and external oracles (the subprocess
supervisor, the Chinese-calendar library, Python `float` parsing, JSON and
datetime parsing) are parameters.
-/

namespace Everping

/-! ## Python string primitives

The parser in `main.py` works with `str.strip`, `str.split` and slicing.
We model strings at the character-list level so that every operation is
directly computable by the kernel.
-/

/-- The ASCII whitespace characters removed by Python `str.strip()`. -/
def isSpaceChar (c : Char) : Bool :=
  c == ' ' || c == '\t' || c == '\n' || c == '\r' || c == '\x0b' || c == '\x0c'

/-- Build a string back from a character list. -/
def ofChars (l : List Char) : String := ⟨l⟩

/-- Remove trailing whitespace from a character list. -/
def dropTrailingSpaces (l : List Char) : List Char :=
  (l.reverse.dropWhile isSpaceChar).reverse

/-- Remove leading and trailing whitespace (Python `str.strip()`). -/
def stripChars (l : List Char) : List Char :=
  dropTrailingSpaces (l.dropWhile isSpaceChar)

/-- Python `str.strip()` on strings. -/
def pyStrip (s : String) : String := ofChars (stripChars s.data)

/-- Split a character list on every occurrence of `sep`
(Python `str.split(sep)` for a one-character separator). -/
def splitCharsAux (sep : Char) : List Char → List Char → List (List Char)
  | [], acc => [acc.reverse]
  | c :: rest, acc =>
    if c = sep then acc.reverse :: splitCharsAux sep rest []
    else splitCharsAux sep rest (c :: acc)

/-- Python `s.split(sep)` for a single-character separator. -/
def splitOnChar (sep : Char) (s : String) : List String :=
  (splitCharsAux sep s.data []).map ofChars

/-- Split at the first occurrence of `sep` (Python `s.split(sep, 1)`);
when `sep` does not occur the whole input is the left part. -/
def splitFirstChars (sep : Char) : List Char → List Char × List Char
  | [] => ([], [])
  | c :: rest =>
    if c = sep then ([], rest)
    else
      let p := splitFirstChars sep rest
      (c :: p.1, p.2)

/-- Python `s.split("=", 1)` as a pair of strings. -/
def splitFirstEq (s : String) : String × String :=
  let p := splitFirstChars '=' s.data
  (ofChars p.1, ofChars p.2)

/-- Whether a character list contains `'='` (Python `"=" in t`). -/
def hasEq (l : List Char) : Bool := l.any (fun c => c == '=')

/-- Remove trailing `'\n'` characters (the `rstrip("\n")` applied per line). -/
def rstripNl (s : String) : String :=
  ofChars ((s.data.reverse.dropWhile (fun c => c == '\n')).reverse)

/-- The lines of a captured stdout text.  `main.py` uses `str.splitlines`
followed by `rstrip("\n")`; we model the text as LF-separated. -/
def pyLines (s : String) : List String :=
  (splitOnChar '\n' s).map rstripNl

/-- Whether a line starts with the literal `OUT=`. -/
def isOutLine (s : String) : Bool :=
  match s.data with
  | 'O' :: 'U' :: 'T' :: '=' :: _ => true
  | _ => false

/-! ## Monitor output parser (`parse_out_line`, `parse_metrics_tokens`)

`float(...)` of Python is kept abstract as a partial map
`toReal : String → Option ℚ`: the claims about the parser only depend on
which strings parse, not on the numeric semantics.
-/

/-- `parse_out_line` of `main.py`: select the last line starting with
`OUT=`, take the remainder, and split it on tab characters; an empty
payload or a missing `OUT=` line gives no tokens. -/
def parse_out_line (stdout_text : String) : List String :=
  let lines := pyLines stdout_text
  let out_lines := lines.filter isOutLine
  match out_lines.getLast? with
  | none => []
  | some last =>
    let payload := ofChars (last.data.drop 4)
    if payload = "" then [] else splitOnChar '\t' payload

/-- `parse_metrics_tokens` of `main.py`: each token is stripped; a token
containing `=` is split on the first `=` and yields `(key, value)` when the
value part parses; otherwise the whole token must parse and yields
`("value", number)`; everything else is dropped. -/
def parse_metrics_tokens (toReal : String → Option ℚ) : List String → List (String × ℚ)
  | [] => []
  | t0 :: rest =>
    let t := pyStrip t0
    let tail := parse_metrics_tokens toReal rest
    if t = "" then tail
    else if hasEq t.data then
      let kv := splitFirstEq t
      match toReal (pyStrip kv.2) with
      | some x => (pyStrip kv.1, x) :: tail
      | none => tail
    else
      match toReal t with
      | some x => ("value", x) :: tail
      | none => tail

/-- The pair a single raw token contributes in `parse_metrics_tokens`
(one iteration of its loop). -/
def codeTokenPair (toReal : String → Option ℚ) (t0 : String) :
    Option (String × ℚ) :=
  let t := pyStrip t0
  if t = "" then none
  else if hasEq t.data then
    let kv := splitFirstEq t
    (toReal (pyStrip kv.2)).map (fun x => (pyStrip kv.1, x))
  else
    (toReal t).map (fun x => ("value", x))

/-- The full code-side parser: pairs emitted for a captured stdout. -/
def monitor_pairs (toReal : String → Option ℚ) (stdout_text : String) :
    List (String × ℚ) :=
  parse_metrics_tokens toReal (parse_out_line stdout_text)

/-! Spec-side parser, following the specification wording: the payload of
the last `OUT=` line is split on tabs; a token containing `=` is split on
the first `=` and both sides are trimmed; any other token is trimmed whole. -/

/-- Modelled from the spec: the payload of the last `OUT=` line, when any. -/
def spec_select_payload (stdout_text : String) : Option String :=
  match (pyLines stdout_text).filter isOutLine |>.getLast? with
  | none => none
  | some last => some (ofChars (last.data.drop 4))

/-- Modelled from the spec: the pair a single raw token yields, if any. -/
def specTokenPair (toReal : String → Option ℚ) (t : String) :
    Option (String × ℚ) :=
  if hasEq t.data then
    let kv := splitFirstEq t
    (toReal (pyStrip kv.2)).map (fun x => (pyStrip kv.1, x))
  else
    (toReal (pyStrip t)).map (fun x => ("value", x))

/-- Modelled from the spec: pairs emitted for a captured stdout. -/
def monitor_pairs_spec (toReal : String → Option ℚ) (stdout_text : String) :
    List (String × ℚ) :=
  match spec_select_payload stdout_text with
  | none => []
  | some payload => (splitOnChar '\t' payload).filterMap (specTokenPair toReal)

/-! ## Process supervisor (`executor.py`)

`run_command_killpg` launches the child and waits.  Its observable control
flow depends only on how the child behaves with respect to the timeout and
the SIGTERM grace window, which we abstract as `ChildBehavior`:
`finished rc` — `communicate(timeout=timeout_sec)` returned with exit
status `rc`; `termExit rc` — the first wait timed out and the child exited
with status `rc` inside the `term_grace_sec` window after SIGTERM;
`killed` — the child also survived the grace window and was SIGKILLed.
Python's `p.returncode or d` evaluates to `d` when the return code is `0`.
-/

/-- How the supervised child behaved relative to the two waits. -/
inductive ChildBehavior where
  | finished (rc : Int)
  | termExit (rc : Int)
  | killed
deriving DecidableEq

/-- The result record returned by the supervisor. -/
structure ExecResult where
  exit_code : Int
  stdout : String
  stderr : String
  timed_out : Bool
deriving DecidableEq

/-- Python `a or d` on integers: `d` when `a` is zero. -/
def pyOrInt (a d : Int) : Int := if a = 0 then d else a

/-- `run_command_killpg` of `executor.py`, as a function of the child's
behavior and its captured streams. -/
def run_command_killpg (b : ChildBehavior) (out err : String) : ExecResult :=
  match b with
  | .finished rc => ⟨pyOrInt rc 0, out, err, false⟩
  | .termExit rc => ⟨pyOrInt rc 124, out, err, true⟩
  | .killed => ⟨137, out, err, true⟩

/-! ## Holiday gate (`holiday_allowed`)

The `chinese_calendar` oracle is abstracted as
`Option (Bool × Bool)`: `none` when the import or the queries raise
(the gate then defaults to allowed), `some (is_workday, is_holiday)`
when both queries succeed for today.
-/

/-- `holiday_allowed` of `main.py`. -/
def holiday_allowed (policy : String) (oracle : Option (Bool × Bool)) : Bool :=
  if policy = "NONE" then true
  else
    match oracle with
    | none => true
    | some (is_workday, is_holiday) =>
      if policy = "CN_WORKDAY_ONLY" then is_workday
      else if policy = "SKIP_CN_HOLIDAY" then !is_holiday
      else if policy = "SKIP_CN_WORKDAY" then !is_workday
      else true

/-! ## Data model (`models.py`)

Timestamps are integer seconds; `DateTime` columns that may be NULL are
`Option Int`.  Tables are lists of rows; primary-key uniqueness is stated
as a `Nodup` hypothesis where a claim needs it.
-/

/-- A row of the `runs` table. -/
structure RunRow where
  id : Nat
  taskId : Nat
  triggerId : Option Nat
  status : String
  scheduledAt : Int
  startedAt : Option Int
  finishedAt : Option Int
  exitCode : Option Int
  errorMessage : Option String
  stdoutPath : Option String
  stderrPath : Option String
deriving DecidableEq

/-- A row of the `tasks` table (the columns the engine reads). -/
structure TaskRow where
  id : Nat
  name : String
  type : String
  jobId : Option String
  commandTemplate : String
  enabled : Nat
deriving DecidableEq

/-- A row of the `triggers` table. -/
structure TriggerRow where
  id : Nat
  taskId : Nat
  triggerType : String
  cronExpr : Option String
  intervalSec : Option Int
  deadlineConfig : Option String
  holidayPolicy : String
  enabled : Nat
deriving DecidableEq

/-- A row of the `alert_state` table. -/
structure AlertStateRow where
  taskId : Nat
  alertType : String
  lastSentAt : Option Int
deriving DecidableEq

/-- A row of the `alerts` table. -/
structure AlertRow where
  taskId : Nat
  alertType : String
  message : String
  suppressed : Nat
deriving DecidableEq

/-- One row of a per-task metrics CSV: task id, task name, key, value.
The local timestamp column is not modelled. -/
abbrev CsvRow := Nat × String × String × ℚ

/-- The durable state touched by the pipeline: the database tables, the
metric CSV rows, the messages handed to the external push notifier, and a
counter of supervisor invocations. -/
structure World where
  runs : List RunRow
  tasks : List TaskRow
  triggers : List TriggerRow
  alertStates : List AlertStateRow
  alerts : List AlertRow
  csvRows : List CsvRow
  pushes : List String
  supCalls : Nat
  nextRunId : Nat
deriving DecidableEq

/-- Read the next wall-clock value (each `now_utc()` call consumes one
entry of the threaded clock list). -/
def tick : List Int → Int × List Int
  | [] => (0, [])
  | t :: rest => (t, rest)

/-- Look a run up by id (`db.get(Run, run_id)` / the `WHERE id=?` filter). -/
def findRun (runs : List RunRow) (runId : Nat) : Option RunRow :=
  runs.find? (fun r => r.id == runId)

/-- Apply an ORM attribute update to the row with the given id. -/
def updateRun (runs : List RunRow) (runId : Nat) (f : RunRow → RunRow) :
    List RunRow :=
  runs.map (fun r => if r.id == runId then f r else r)

/-! ## Services (`main.py`) -/

/-- `enqueue_run`: insert a new PENDING run; the database assigns the id. -/
def enqueue_run (w : World) (nowUtc : Int) (taskId : Nat)
    (triggerId : Option Nat) : World × Nat :=
  let rid := w.nextRunId
  let row : RunRow :=
    { id := rid, taskId := taskId, triggerId := triggerId,
      status := "PENDING", scheduledAt := nowUtc, startedAt := none,
      finishedAt := none, exitCode := none, errorMessage := none,
      stdoutPath := none, stderrPath := none }
  ({ w with runs := w.runs ++ [row], nextRunId := w.nextRunId + 1 }, rid)

/-- `acquire_task_mutex`: true when no *other* run of the task is RUNNING. -/
def acquire_task_mutex (runs : List RunRow) (taskId runId : Nat) : Bool :=
  !(runs.any (fun r => r.taskId == taskId && r.status == "RUNNING" && r.id != runId))

/-- `st.last_sent_at and (now - st.last_sent_at).total_seconds() < S`:
whether a stored `last_sent_at` falls inside the suppression window. -/
def recent (o : Option Int) (now suppressSec : Int) : Bool :=
  match o with
  | some t => decide (now - t < suppressSec)
  | none => false

/-- `maybe_send_alert`: look up the (task, kind) AlertState, decide
suppression, always record an Alert row, bump `last_sent_at` to now, and
invoke the push script only when not suppressed.  Returns the updated
state and whether the notifier was invoked. -/
def maybe_send_alert (w : World) (suppressSec : Int) (now : Int)
    (task : TaskRow) (alertType msg : String) : World × Bool :=
  let st? := w.alertStates.find?
    (fun s => s.taskId == task.id && s.alertType == alertType)
  let suppressed :=
    match st? with
    | some st => recent st.lastSentAt now suppressSec
    | none => false
  let states :=
    match st? with
    | none => w.alertStates ++ [⟨task.id, alertType, some now⟩]
    | some _ =>
      w.alertStates.map (fun s =>
        if s.taskId == task.id && s.alertType == alertType then
          { s with lastSentAt := some now }
        else s)
  let w := { w with alertStates := states,
                    alerts := w.alerts ++
                      [⟨task.id, alertType, msg, if suppressed then 1 else 0⟩] }
  if suppressed then (w, false)
  else ({ w with pushes := w.pushes ++ [msg] }, true)

/-- Modelled from the spec: some AlertState row for this (task, kind)
exists whose `last_sent_at` lies inside the suppression window. -/
def suppressedSpec (states : List AlertStateRow) (taskId : Nat) (k : String)
    (now sec : Int) : Prop :=
  ∃ st ∈ states, st.taskId = taskId ∧ st.alertType = k ∧
    recent st.lastSentAt now sec = true

/-! ## Execution engine (`execute_one_run`, `_execute_single`) -/

/-- External inputs of the engine: configuration values and the job
catalogue, plus the abstract `float` parser used by the metrics path. -/
structure EngineEnv where
  zombieSec : Int
  suppressSec : Int
  jobs : String → Option (List String)
  toReal : String → Option ℚ
  logDay : String

/-- The `SET` clause of the claim update. -/
def claimUpd (now : Int) (r : RunRow) : RunRow :=
  { r with status := "RUNNING", startedAt := some now }

/-- The conditional claim `UPDATE run SET status='RUNNING', started_at=now
WHERE id=? AND status='PENDING'`: the updated table and the rowcount. -/
def claimStep (runs : List RunRow) (runId : Nat) (now : Int) :
    List RunRow × Nat :=
  (runs.map (fun r =>
      if r.id == runId && r.status == "PENDING" then claimUpd now r else r),
   (runs.filter (fun r => r.id == runId && r.status == "PENDING")).length)

/-- The `WHERE` clause of the zombie sweep:
`status='RUNNING' AND started_at < cutoff` (NULL compares false). -/
def zombieHit (cutoff : Int) (r : RunRow) : Bool :=
  r.status == "RUNNING" &&
    (match r.startedAt with
     | some t => decide (t < cutoff)
     | none => false)

/-- The `SET` clause of the zombie sweep. -/
def zombieUpd (now : Int) (r : RunRow) : RunRow :=
  { r with status := "FAILED", finishedAt := some now,
           errorMessage := some "Zombie run auto-failed" }

/-- The opportunistic zombie sweep: every RUNNING run started before the
cutoff is auto-failed. -/
def zombieSweep (runs : List RunRow) (cutoff now : Int) : List RunRow :=
  runs.map (fun r => if zombieHit cutoff r then zombieUpd now r else r)

/-- The task-gate update: disabled or missing task skips the run. -/
def skipUpd (now : Int) (r : RunRow) : RunRow :=
  { r with status := "SKIPPED", finishedAt := some now }

/-- The reentrancy-mutex update: exit code 99 and the fixed message. -/
def reentryUpd (now : Int) (r : RunRow) : RunRow :=
  { r with status := "FAILED", finishedAt := some now, exitCode := some 99,
           errorMessage := some "Task is already RUNNING (non-reentrant)." }

/-- The missing-job update: exit code 97 and `Job not found: <id>`. -/
def jobMissingUpd (jid : String) (now : Int) (r : RunRow) : RunRow :=
  { r with status := "FAILED", finishedAt := some now, exitCode := some 97,
           errorMessage := some ("Job not found: " ++ jid) }

/-- Store the daily log paths on the run (`write_run_logs` result). -/
def logUpd (day : String) (r : RunRow) : RunRow :=
  { r with stdoutPath := some ("run_" ++ day ++ ".out.log"),
           stderrPath := some ("run_" ++ day ++ ".err.log") }

/-- The terminal update after execution: classification, exit code and
`finished_at`. -/
def finishUpd (status : String) (code now : Int) (r : RunRow) : RunRow :=
  { r with status := status, exitCode := some code, finishedAt := some now }

/-- Step 7 of the engine: TIMEOUT beats SUCCESS beats FAILED. -/
def classify_status (res : ExecResult) : String :=
  if res.timed_out then "TIMEOUT"
  else if res.exit_code = 0 then "SUCCESS" else "FAILED"

/-- `write_metrics_csv`: append one CSV row per parsed pair (no-op on an
empty pair list; the age-based pruning of old rows is not modelled). -/
def write_metrics_csv (w : World) (task : TaskRow)
    (pairs : List (String × ℚ)) : World :=
  if pairs.isEmpty then w
  else { w with csvRows := w.csvRows ++
          pairs.map (fun p => (task.id, task.name, p.1, p.2)) }

/-- The tail of `_execute_single` once a supervisor result is available:
log capture (skipped for a clean monitor success), classification,
terminal update, metrics, monitor cleanup and the `exec_failed` alert.
The supervisor invocation itself is counted in `supCalls`, its result
being the oracle `res`. -/
def execute_with_result (env : EngineEnv) (clock : List Int)
    (res : ExecResult) (w : World) (runId : Nat) (task : TaskRow) : World :=
  let w := { w with supCalls := w.supCalls + 1 }
  let w :=
    if task.type == "monitor" && !res.timed_out && res.exit_code == 0 then w
    else { w with runs := updateRun w.runs runId (logUpd env.logDay) }
  let status := classify_status res
  let fin := finishUpd status res.exit_code (tick clock).1
  let w := { w with runs := updateRun w.runs runId fin }
  let clock := (tick clock).2
  let tokens := parse_out_line res.stdout
  let w :=
    if task.type == "monitor" && !tokens.isEmpty then
      write_metrics_csv w task (parse_metrics_tokens env.toReal tokens)
    else w
  if task.type == "monitor" && status == "SUCCESS" then
    { w with runs := w.runs.filter (fun r => r.id != runId) }
  else if status == "FAILED" || status == "TIMEOUT" then
    (maybe_send_alert w env.suppressSec (tick clock).1 task "exec_failed"
      (task.name ++ ": status=" ++ status ++ " code=" ++ toString res.exit_code)).1
  else w

/-- `_execute_single`: resolve the job (argv path) or fall back to the
command template (shell path); a missing job id fails the run with
exit code 97 and a `job_missing` alert before any supervisor call. -/
def execute_single (env : EngineEnv) (clock : List Int) (res : ExecResult)
    (w : World) (runId : Nat) (task : TaskRow) : World :=
  match task.jobId with
  | some jid =>
    match env.jobs jid with
    | none =>
      let now := (tick clock).1
      let clock := (tick clock).2
      let w := { w with runs := updateRun w.runs runId (jobMissingUpd jid now) }
      (maybe_send_alert w env.suppressSec (tick clock).1 task "job_missing"
        (task.name ++ ": job not found: " ++ jid)).1
    | some _argv => execute_with_result env clock res w runId task
  | none => execute_with_result env clock res w runId task

/-- Whether `_execute_single` reaches the supervisor: either the task has
no job id (shell path) or its job id resolves in the catalogue. -/
def jobResolves (jobs : String → Option (List String)) (task : TaskRow) : Bool :=
  match task.jobId with
  | some jid => (jobs jid).isSome
  | none => true

/-- The tail of `execute_one_run` after a successful claim: zombie sweep,
task gate, reentrancy mutex, then `_execute_single`. -/
def execute_claimed (env : EngineEnv) (clock : List Int) (res : ExecResult)
    (w : World) (runId : Nat) : World :=
  match findRun w.runs runId with
  | none => w
  | some run =>
    let cutoff := (tick clock).1 - env.zombieSec
    let clock := (tick clock).2
    let now3 := (tick clock).1
    let clock := (tick clock).2
    let w := { w with runs := zombieSweep w.runs cutoff now3 }
    match w.tasks.find? (fun t => t.id == run.taskId) with
    | none => { w with runs := updateRun w.runs runId (skipUpd (tick clock).1) }
    | some task =>
      if task.enabled != 1 then
        { w with runs := updateRun w.runs runId (skipUpd (tick clock).1) }
      else if !(acquire_task_mutex w.runs task.id runId) then
        let now5 := (tick clock).1
        let clock := (tick clock).2
        let w := { w with runs := updateRun w.runs runId (reentryUpd now5) }
        (maybe_send_alert w env.suppressSec (tick clock).1 task "reentry"
          (task.name ++ ": reentry blocked")).1
      else
        execute_single env clock res w runId task

/-- `execute_one_run`: the conditional claim, then the post-claim phase.
Zero claimed rows abandons the run untouched.  The surrounding
internal-error handler cannot fire in this pure model and is not
represented. -/
def execute_one_run (env : EngineEnv) (clock : List Int) (res : ExecResult)
    (w : World) (runId : Nat) : World :=
  let now := (tick clock).1
  let clock := (tick clock).2
  let cs := claimStep w.runs runId now
  if cs.2 = 0 then w
  else execute_claimed env clock res { w with runs := cs.1 } runId

/-! ## Trigger evaluator (`AppScheduler._fire`)

JSON decoding of the deadline config (including the `int(...)` coercion of
`start_before_days`) and `parse_local_naive` are abstracted as oracles in
`FireEnv`; a day is 86400 model seconds.
-/

/-- The parsed deadline configuration (`json.loads` + field reads). -/
structure DeadlineCfg where
  deadline_at : Option String
  start_before_days : Int
deriving DecidableEq

/-- External inputs of one trigger firing. -/
structure FireEnv where
  oracle : Option (Bool × Bool)
  jsonParse : String → Option DeadlineCfg
  parseLocalNaive : String → Option Int
  nowLocal : Int
  nowUtc : Int

/-- Python `a or d` on strings: `d` when `a` is empty. -/
def pyOrStr (a d : String) : String := if a = "" then d else a

/-- `AppScheduler._fire`: reload the trigger, gate on enabled flags and the
holiday policy, apply the deadline window, then enqueue one PENDING run. -/
def fire (env : FireEnv) (w : World) (triggerId : Nat) : World :=
  match w.triggers.find? (fun t => t.id == triggerId) with
  | none => w
  | some t =>
    if t.enabled != 1 then w
    else if !(holiday_allowed t.holidayPolicy env.oracle) then w
    else
      match w.tasks.find? (fun tk => tk.id == t.taskId) with
      | none => w
      | some task =>
        if task.enabled != 1 then w
        else if t.triggerType == "deadline" then
          match env.jsonParse (pyOrStr (t.deadlineConfig.getD "") "\x7b\x7d") with
          | none => w
          | some cfg =>
            match cfg.deadline_at with
            | none => w
            | some da =>
              if da = "" then w
              else
                match env.parseLocalNaive da with
                | none => w
                | some deadlineDt =>
                  let startDt := deadlineDt - cfg.start_before_days * 86400
                  if env.nowLocal < startDt then w
                  else if env.nowLocal > deadlineDt then
                    { w with triggers := w.triggers.map (fun tr =>
                        if tr.id == triggerId then { tr with enabled := 0 } else tr) }
                  else (enqueue_run w env.nowUtc task.id (some t.id)).1
        else (enqueue_run w env.nowUtc task.id (some t.id)).1

/-! ## Concrete fixtures

Small concrete instances used by witness and counterexample theorems. -/

/-- A minimal engine environment: default settings, empty job catalogue,
a number parser that rejects everything. -/
def envW : EngineEnv :=
  { zombieSec := 3600, suppressSec := 900, jobs := fun _ => none,
    toReal := fun _ => none, logDay := "20260101" }

/-- A supervisor result for a clean, silent success. -/
def resW : ExecResult :=
  { exit_code := 0, stdout := "", stderr := "", timed_out := false }

/-- A task row with the given id, enabled flag and type. -/
def taskW (id : Nat) (enabled : Nat) (ty : String) : TaskRow :=
  { id := id, name := "t1", type := ty, jobId := none,
    commandTemplate := "true", enabled := enabled }

/-- A run row of task 1 with the given id, status and start time. -/
def runW (id : Nat) (status : String) (startedAt : Option Int) : RunRow :=
  { id := id, taskId := 1, triggerId := none, status := status,
    scheduledAt := 0, startedAt := startedAt, finishedAt := none,
    exitCode := none, errorMessage := none, stdoutPath := none,
    stderrPath := none }

/-- A world holding only the given runs and tasks. -/
def worldW (runs : List RunRow) (tasks : List TaskRow) : World :=
  { runs := runs, tasks := tasks, triggers := [], alertStates := [],
    alerts := [], csvRows := [], pushes := [], supCalls := 0,
    nextRunId := 100 }

/-- A deadline trigger fixture whose raw config is the string `cfg`. -/
def trigW : TriggerRow :=
  { id := 5, taskId := 1, triggerType := "deadline", cronExpr := none,
    intervalSec := none, deadlineConfig := some "cfg",
    holidayPolicy := "NONE", enabled := 1 }

/-- A firing environment: no calendar oracle, deadline at local time
1000000 with a two-day window, fired at local time 950000. -/
def fireEnvW : FireEnv :=
  { oracle := none,
    jsonParse := fun s =>
      if s = "cfg" then
        some { deadline_at := some "D", start_before_days := 2 }
      else none,
    parseLocalNaive := fun s => if s = "D" then some 1000000 else none,
    nowLocal := 950000, nowUtc := 777 }

/-- The world for the deadline firing witness. -/
def worldT : World :=
  { worldW [] [taskW 1 1 "schedule"] with triggers := [trigW] }

/-! ## Shared helper lemmas -/

/-- `find?` over a `map` by a key-preserving function searches the
underlying list. -/
theorem find?_map_key {α κ : Type} [BEq κ] (key : α → κ) (g : α → α)
    (hg : ∀ x, key (g x) = key x) (l : List α) (k : κ) :
    (l.map g).find? (fun x => key x == k) =
      (l.find? (fun x => key x == k)).map g := by
  induction l with
  | nil => rfl
  | cons a t ih =>
    simp only [List.map_cons, List.find?, hg a]
    cases hk : key a == k with
    | true => rfl
    | false => exact ih

/-- In a table whose key column is duplicate-free, two members with equal
keys are the same row. -/
theorem key_unique {α κ : Type} (key : α → κ) {l : List α}
    (hnd : (l.map key).Nodup) {x y : α} (hx : x ∈ l) (hy : y ∈ l)
    (h : key x = key y) : x = y :=
  List.inj_on_of_nodup_map hnd hx hy h

/-! ### Run-table helper lemmas -/

/-- The row returned by `find?` satisfies the predicate. -/
theorem find?_pred {α : Type} {p : α → Bool} {l : List α} {a : α}
    (h : l.find? p = some a) : p a = true :=
  List.find?_some h

/-- The row returned by `find?` is a member of the table. -/
theorem find?_mem {α : Type} {p : α → Bool} {l : List α} {a : α}
    (h : l.find? p = some a) : a ∈ l :=
  List.mem_of_find?_eq_some h

/-- A found run row satisfies the id test. -/
theorem findRun_beq {l : List RunRow} {rid : Nat} {r : RunRow}
    (h : findRun l rid = some r) : (r.id == rid) = true := by
  unfold findRun at h
  have hp := find?_pred h
  exact hp

/-- A found run row is a member of the table. -/
theorem findRun_mem {l : List RunRow} {rid : Nat} {r : RunRow}
    (h : findRun l rid = some r) : r ∈ l := by
  unfold findRun at h
  exact find?_mem h

/-- `findRun` looks through any id-preserving row transformation. -/
theorem findRun_map (g : RunRow → RunRow) (hg : ∀ x, (g x).id = x.id)
    (l : List RunRow) (rid : Nat) :
    findRun (l.map g) rid = (findRun l rid).map g :=
  find?_map_key RunRow.id g hg l rid

/-- The conditional claim update preserves ids. -/
theorem claim_map_id (rid : Nat) (now : Int) (x : RunRow) :
    (if x.id == rid && x.status == "PENDING" then claimUpd now x else x).id
      = x.id := by
  by_cases h : (x.id == rid && x.status == "PENDING") = true <;>
    simp [h, claimUpd]

/-- The conditional zombie update preserves ids. -/
theorem zombie_map_id (cutoff now : Int) (x : RunRow) :
    (if zombieHit cutoff x then zombieUpd now x else x).id = x.id := by
  by_cases h : zombieHit cutoff x <;> simp [h, zombieUpd]

/-- `findRun` after `updateRun` finds the transformed row. -/
theorem findRun_updateRun (l : List RunRow) (rid : Nat) (f : RunRow → RunRow)
    (hf : ∀ x, (f x).id = x.id) :
    findRun (updateRun l rid f) rid = (findRun l rid).map f := by
  unfold updateRun
  rw [findRun_map _ (fun x => by
    by_cases h : (x.id == rid) = true <;> simp [h, hf])]
  cases hfind : findRun l rid with
  | none => rfl
  | some r =>
    have hb : (r.id == rid) = true := findRun_beq hfind
    show some (if r.id == rid then f r else r) = some (f r)
    rw [hb, if_pos rfl]

/-- `findRun` after the claim map finds the conditionally claimed row. -/
theorem findRun_claimStep (l : List RunRow) (rid : Nat) (now : Int) :
    findRun (claimStep l rid now).1 rid =
      (findRun l rid).map (fun r =>
        if r.id == rid && r.status == "PENDING" then claimUpd now r else r) :=
  findRun_map _ (claim_map_id rid now) l rid

/-- `findRun` after the zombie sweep finds the conditionally swept row. -/
theorem findRun_zombieSweep (l : List RunRow) (cutoff now : Int) (rid : Nat) :
    findRun (zombieSweep l cutoff now) rid =
      (findRun l rid).map (fun r =>
        if zombieHit cutoff r then zombieUpd now r else r) :=
  findRun_map _ (zombie_map_id cutoff now) l rid

/-- With unique ids, a non-PENDING row makes the claim rowcount zero. -/
theorem claimStep_count_zero {l : List RunRow} {rid : Nat} {r : RunRow}
    (hnd : (l.map RunRow.id).Nodup) (hr : findRun l rid = some r)
    (hst : r.status ≠ "PENDING") (now : Int) :
    (claimStep l rid now).2 = 0 := by
  unfold claimStep
  rw [List.length_eq_zero, List.filter_eq_nil_iff]
  intro x hx
  by_cases hid : (x.id == rid) = true
  · have hrid : (r.id == rid) = true := findRun_beq hr
    have hxr : x = r := key_unique RunRow.id hnd hx (findRun_mem hr)
      (by
        rw [beq_iff_eq] at hid hrid
        show x.id = r.id
        rw [hid, hrid])
    rw [hxr]
    simp [hst]
  · simp [hid]

/-- A PENDING row makes the claim rowcount nonzero. -/
theorem claimStep_count_pos {l : List RunRow} {rid : Nat} {r : RunRow}
    (hr : findRun l rid = some r) (hst : r.status = "PENDING") (now : Int) :
    ¬((claimStep l rid now).2 = 0) := by
  unfold claimStep
  intro hlen
  rw [List.length_eq_zero, List.filter_eq_nil_iff] at hlen
  have hrid : (r.id == rid) = true := findRun_beq hr
  exact hlen r (findRun_mem hr) (by simp [hrid, hst])

/-- Rows whose id differs from the claimed one pass through the claim
map unchanged, in both directions. -/
theorem claimStep_mem_other (l : List RunRow) (rid : Nat) (now : Int) :
    (∀ x ∈ l, x.id ≠ rid → x ∈ (claimStep l rid now).1) ∧
    (∀ y ∈ (claimStep l rid now).1, y.id ≠ rid → y ∈ l) := by
  constructor
  · intro x hx hne
    have hg : (fun r => if r.id == rid && r.status == "PENDING" then
        claimUpd now r else r) x = x := by
      have hb : (x.id == rid) = false := beq_eq_false_iff_ne.mpr hne
      simp [hb]
    unfold claimStep
    have hmm := List.mem_map_of_mem
      (fun r => if r.id == rid && r.status == "PENDING" then claimUpd now r
        else r) hx
    rw [hg] at hmm
    exact hmm
  · intro y hy hne
    unfold claimStep at hy
    simp only [List.mem_map] at hy
    obtain ⟨x, hx, hxy⟩ := hy
    have hid : y.id = x.id := by rw [← hxy]; exact claim_map_id rid now x
    have hxne : x.id ≠ rid := by rw [← hid]; exact hne
    have hg : (if x.id == rid && x.status == "PENDING" then claimUpd now x
        else x) = x := by
      simp [beq_eq_false_iff_ne.mpr hxne]
    rw [← hxy, hg]
    exact hx

/-- The alert engine never touches the runs table. -/
theorem maybe_send_alert_runs (w : World) (sec now : Int) (task : TaskRow)
    (k msg : String) :
    (maybe_send_alert w sec now task k msg).1.runs = w.runs := by
  unfold maybe_send_alert
  dsimp only
  split <;> rfl

/-- The alert engine never invokes the supervisor. -/
theorem maybe_send_alert_supCalls (w : World) (sec now : Int)
    (task : TaskRow) (k msg : String) :
    (maybe_send_alert w sec now task k msg).1.supCalls = w.supCalls := by
  unfold maybe_send_alert
  dsimp only
  split <;> rfl

/-- The alert engine appends exactly one Alert row for its pair. -/
theorem maybe_send_alert_alerts (w : World) (sec now : Int) (task : TaskRow)
    (k msg : String) :
    ∃ fl, (maybe_send_alert w sec now task k msg).1.alerts =
      w.alerts ++ [⟨task.id, k, msg, fl⟩] := by
  unfold maybe_send_alert
  dsimp only
  split <;> exact ⟨_, rfl⟩

/-- The alert engine never touches the metric CSV rows. -/
theorem maybe_send_alert_csvRows (w : World) (sec now : Int) (task : TaskRow)
    (k msg : String) :
    (maybe_send_alert w sec now task k msg).1.csvRows = w.csvRows := by
  unfold maybe_send_alert
  dsimp only
  split <;> rfl

/-- The metrics writer never touches the runs table. -/
theorem write_metrics_csv_runs (w : World) (task : TaskRow)
    (pairs : List (String × ℚ)) :
    (write_metrics_csv w task pairs).runs = w.runs := by
  unfold write_metrics_csv
  split <;> rfl

/-- Deleting the run row by id makes it unfindable. -/
theorem findRun_filter_ne (l : List RunRow) (rid : Nat) :
    findRun (l.filter (fun x => x.id != rid)) rid = none := by
  unfold findRun
  rw [List.find?_eq_none]
  intro x hx
  have hne := (List.mem_filter.mp hx).2
  simp only [bne_iff_ne, ne_eq] at hne
  simp [hne]

/-- The runs table produced by the post-supervisor phase: the optional
log-path update, the terminal update, then the monitor cleanup; the
metrics write and the `exec_failed` alert leave the table alone. -/
theorem ewr_runs_eq (env : EngineEnv) (clock : List Int) (res : ExecResult)
    (w : World) (rid : Nat) (task : TaskRow) :
    (execute_with_result env clock res w rid task).runs =
      (if (task.type == "monitor" && classify_status res == "SUCCESS") = true
       then (updateRun
          (if (task.type == "monitor" && !res.timed_out &&
              res.exit_code == 0) = true
           then w.runs else updateRun w.runs rid (logUpd env.logDay))
          rid (finishUpd (classify_status res) res.exit_code
            (tick clock).1)).filter (fun x => x.id != rid)
       else updateRun
          (if (task.type == "monitor" && !res.timed_out &&
              res.exit_code == 0) = true
           then w.runs else updateRun w.runs rid (logUpd env.logDay))
          rid (finishUpd (classify_status res) res.exit_code
            (tick clock).1)) := by
  unfold execute_with_result
  dsimp only
  simp only [apply_ite World.runs, write_metrics_csv_runs,
    maybe_send_alert_runs, ite_self]

/-- The post-supervisor phase records every parsed metric pair of a
monitor task in the CSV rows. -/
theorem ewr_csv (env : EngineEnv) (clock : List Int) (res : ExecResult)
    (w : World) (rid : Nat) (task : TaskRow)
    (hmon : task.type = "monitor") :
    ∀ p ∈ parse_metrics_tokens env.toReal (parse_out_line res.stdout),
      (task.id, task.name, p.1, p.2) ∈
        (execute_with_result env clock res w rid task).csvRows := by
  intro p hp
  have htok : ¬((parse_out_line res.stdout).isEmpty = true) := by
    intro he
    rw [List.isEmpty_iff] at he
    rw [he] at hp
    simp [parse_metrics_tokens] at hp
  have hmonb : (task.type == "monitor") = true := by rw [hmon]; decide
  have hcond : (task.type == "monitor" &&
      !(parse_out_line res.stdout).isEmpty) = true := by
    rw [hmonb]
    cases hie : (parse_out_line res.stdout).isEmpty with
    | false => rfl
    | true => exact absurd hie htok
  have hpairs : ¬(parse_metrics_tokens env.toReal
      (parse_out_line res.stdout)).isEmpty = true := by
    intro he
    rw [List.isEmpty_iff] at he
    rw [he] at hp
    simp at hp
  have hcsv : ∀ (W : World),
      (task.id, task.name, p.1, p.2) ∈
        (write_metrics_csv W task (parse_metrics_tokens env.toReal
          (parse_out_line res.stdout))).csvRows := by
    intro W
    unfold write_metrics_csv
    rw [if_neg hpairs]
    refine List.mem_append_right _ ?_
    have := List.mem_map_of_mem
      (fun q => (task.id, task.name, q.1, q.2)) hp
    exact this
  unfold execute_with_result
  dsimp only
  simp only [apply_ite World.csvRows, maybe_send_alert_csvRows, ite_self,
    hcond, if_true]
  exact hcsv _

/-- Classification yields SUCCESS exactly for a clean zero exit. -/
theorem classify_status_success (res : ExecResult) :
    classify_status res = "SUCCESS" ↔
      (res.timed_out = false ∧ res.exit_code = 0) := by
  unfold classify_status
  by_cases ht : res.timed_out = true
  · rw [if_pos ht]
    constructor
    · intro h
      exact absurd h (by decide)
    · rintro ⟨hf, _⟩
      rw [ht] at hf
      exact Bool.noConfusion hf
  · rw [if_neg ht]
    have htf : res.timed_out = false := by
      cases hb : res.timed_out
      · rfl
      · exact absurd hb ht
    by_cases he : res.exit_code = 0
    · rw [if_pos he]
      simp [htf, he]
    · rw [if_neg he]
      constructor
      · intro h
        exact absurd h (by decide)
      · rintro ⟨_, h0⟩
        exact absurd h0 he

/-- Classification takes one of the three terminal values. -/
theorem classify_status_cases (res : ExecResult) :
    classify_status res = "TIMEOUT" ∨ classify_status res = "SUCCESS" ∨
      classify_status res = "FAILED" := by
  unfold classify_status
  split
  · exact Or.inl rfl
  split
  · exact Or.inr (Or.inl rfl)
  · exact Or.inr (Or.inr rfl)

/-- The monitor-cleanup guard, spelled out on the result fields. -/
theorem cleanup_guard_iff (res : ExecResult) (task : TaskRow) :
    (task.type == "monitor" && classify_status res == "SUCCESS") = true ↔
      (task.type = "monitor" ∧ res.timed_out = false ∧
        res.exit_code = 0) := by
  rw [Bool.and_eq_true, beq_iff_eq, beq_iff_eq, classify_status_success]

/-- When the cleanup guard holds and the job resolves, the run row is
deleted by `_execute_single`. -/
theorem execute_single_deletes (env : EngineEnv) (clock : List Int)
    (res : ExecResult) (w : World) (rid : Nat) (task : TaskRow)
    (hdel : (task.type == "monitor" && classify_status res == "SUCCESS")
      = true)
    (hres : jobResolves env.jobs task = true) :
    findRun (execute_single env clock res w rid task).runs rid = none := by
  unfold execute_single
  cases hj : task.jobId with
  | none =>
    dsimp only
    rw [ewr_runs_eq, if_pos hdel]
    exact findRun_filter_ne _ _
  | some jid =>
    dsimp only
    cases hl : env.jobs jid with
    | none =>
      unfold jobResolves at hres
      rw [hj] at hres
      dsimp only at hres
      rw [hl] at hres
      exact Bool.noConfusion hres
    | some argv =>
      dsimp only
      rw [ewr_runs_eq, if_pos hdel]
      exact findRun_filter_ne _ _

/-- When the cleanup guard fails and the job resolves, the run row
survives `_execute_single` with the classified status. -/
theorem execute_single_exec_row (env : EngineEnv) (clock : List Int)
    (res : ExecResult) (w : World) (rid : Nat) (task : TaskRow)
    (x : RunRow) (hx : findRun w.runs rid = some x)
    (hdel : (task.type == "monitor" && classify_status res == "SUCCESS")
      = false)
    (hres : jobResolves env.jobs task = true) :
    ∃ r', findRun (execute_single env clock res w rid task).runs rid
      = some r' ∧ r'.status = classify_status res := by
  have hbase : ∃ x1, findRun
      (if (task.type == "monitor" && !res.timed_out &&
          res.exit_code == 0) = true
       then w.runs else updateRun w.runs rid (logUpd env.logDay)) rid
      = some x1 := by
    by_cases hc1 : (task.type == "monitor" && !res.timed_out &&
        res.exit_code == 0) = true
    · rw [if_pos hc1]
      exact ⟨x, hx⟩
    · rw [if_neg hc1,
        findRun_updateRun _ _ (logUpd env.logDay) (fun y => rfl), hx]
      exact ⟨_, rfl⟩
  obtain ⟨x1, hx1⟩ := hbase
  have hrow : findRun (updateRun
      (if (task.type == "monitor" && !res.timed_out &&
          res.exit_code == 0) = true
       then w.runs else updateRun w.runs rid (logUpd env.logDay)) rid
      (finishUpd (classify_status res) res.exit_code (tick clock).1)) rid
      = some (finishUpd (classify_status res) res.exit_code
        (tick clock).1 x1) := by
    rw [findRun_updateRun _ _ (finishUpd (classify_status res)
      res.exit_code (tick clock).1) (fun y => rfl), hx1]
    rfl
  unfold execute_single
  cases hj : task.jobId with
  | none =>
    dsimp only
    rw [ewr_runs_eq, if_neg (by rw [hdel]; exact Bool.false_ne_true), hrow]
    exact ⟨_, rfl, rfl⟩
  | some jid =>
    dsimp only
    cases hl : env.jobs jid with
    | none =>
      unfold jobResolves at hres
      rw [hj] at hres
      dsimp only at hres
      rw [hl] at hres
      exact Bool.noConfusion hres
    | some argv =>
      dsimp only
      rw [ewr_runs_eq, if_neg (by rw [hdel]; exact Bool.false_ne_true), hrow]
      exact ⟨_, rfl, rfl⟩

/-- A missing job leaves the run row FAILED with the job-missing
update. -/
theorem execute_single_missing_row (env : EngineEnv) (clock : List Int)
    (res : ExecResult) (w : World) (rid : Nat) (task : TaskRow)
    (x : RunRow) (jid : String) (hx : findRun w.runs rid = some x)
    (hj : task.jobId = some jid) (hl : env.jobs jid = none) :
    findRun (execute_single env clock res w rid task).runs rid
      = some (jobMissingUpd jid (tick clock).1 x) := by
  unfold execute_single
  rw [hj]
  dsimp only
  rw [hl]
  dsimp only
  rw [maybe_send_alert_runs]
  dsimp only
  rw [findRun_updateRun _ _ (jobMissingUpd jid (tick clock).1)
    (fun y => rfl), hx]
  rfl

/-- When the cleanup guard fails, `_execute_single` keeps the run row. -/
theorem execute_single_keeps (env : EngineEnv) (clock : List Int)
    (res : ExecResult) (w : World) (rid : Nat) (task : TaskRow)
    (hx : (findRun w.runs rid).isSome = true)
    (hdel : (task.type == "monitor" && classify_status res == "SUCCESS")
      = false) :
    findRun (execute_single env clock res w rid task).runs rid ≠ none := by
  rw [Option.isSome_iff_exists] at hx
  obtain ⟨x, hx⟩ := hx
  cases hj : task.jobId with
  | none =>
    have hres : jobResolves env.jobs task = true := by
      unfold jobResolves
      rw [hj]
    obtain ⟨r', hr', _⟩ :=
      execute_single_exec_row env clock res w rid task x hx hdel hres
    rw [hr']
    simp
  | some jid =>
    cases hl : env.jobs jid with
    | none =>
      rw [execute_single_missing_row env clock res w rid task x jid hx hj hl]
      simp
    | some argv =>
      have hres : jobResolves env.jobs task = true := by
        unfold jobResolves
        rw [hj]
        dsimp only
        rw [hl]
        rfl
      obtain ⟨r', hr', _⟩ :=
        execute_single_exec_row env clock res w rid task x hx hdel hres
      rw [hr']
      simp

/-- The conditional claim update preserves the task id of a row. -/
theorem claim_map_taskId (rid : Nat) (now : Int) (x : RunRow) :
    (if x.id == rid && x.status == "PENDING" then claimUpd now x
      else x).taskId = x.taskId := by
  by_cases h : (x.id == rid && x.status == "PENDING") = true <;>
    simp [h, claimUpd]

/-- The engine never deletes the run row of a non-monitor task. -/
theorem execute_one_run_keeps_nonmonitor (env : EngineEnv)
    (clock : List Int) (res : ExecResult) (w : World) (rid : Nat)
    (r : RunRow) (task' : TaskRow)
    (hr : findRun w.runs rid = some r)
    (htk : w.tasks.find? (fun t => t.id == r.taskId) = some task')
    (hnm : task'.type ≠ "monitor") :
    findRun (execute_one_run env clock res w rid).runs rid ≠ none := by
  have hdel : (task'.type == "monitor" &&
      classify_status res == "SUCCESS") = false := by
    cases hb : (task'.type == "monitor") with
    | true => exact absurd (beq_iff_eq.mp hb) hnm
    | false => rfl
  unfold execute_one_run
  dsimp only
  by_cases hc : (claimStep w.runs rid (tick clock).1).2 = 0
  · rw [if_pos hc, hr]
    simp
  · rw [if_neg hc]
    have hf1 : findRun (claimStep w.runs rid (tick clock).1).1 rid =
        some (if r.id == rid && r.status == "PENDING" then
          claimUpd (tick clock).1 r else r) := by
      rw [findRun_claimStep, hr]
      rfl
    unfold execute_claimed
    dsimp only
    rw [hf1]
    dsimp only
    simp only [claim_map_taskId]
    rw [htk]
    try dsimp only
    split
    · try dsimp only
      rw [findRun_updateRun, findRun_zombieSweep, hf1]
      · simp
      · intro y
        rfl
    · split
      · try dsimp only
        rw [maybe_send_alert_runs]
        try dsimp only
        rw [findRun_updateRun, findRun_zombieSweep, hf1]
        · simp
        · intro y
          rfl
      · apply execute_single_keeps
        · try dsimp only
          rw [findRun_zombieSweep, hf1]
          rfl
        · exact hdel

/-! ### String-lemma toolbox for the parser claims -/

/-- A whitespace character is never `'='`. -/
theorem space_ne_eqchar {c : Char} (h : isSpaceChar c = true) :
    (c == '=') = false := by
  revert h
  unfold isSpaceChar
  by_cases he : c = '='
  · subst he; decide
  · intro _; exact beq_eq_false_iff_ne.mpr he

/-- An all-whitespace character list contains no `'='`. -/
theorem hasEq_all_space {ws : List Char}
    (h : ∀ c ∈ ws, isSpaceChar c = true) : hasEq ws = false := by
  simp only [hasEq, List.any_eq_false]
  intro c hc
  simp [space_ne_eqchar (h c hc)]

/-- `hasEq` distributes over append. -/
theorem hasEq_append (a b : List Char) :
    hasEq (a ++ b) = (hasEq a || hasEq b) := by
  simp [hasEq, List.any_append]

/-- Stripping ignores an all-whitespace prefix. -/
theorem stripChars_leading_spaces {ws : List Char} (l : List Char)
    (h : ∀ c ∈ ws, isSpaceChar c = true) :
    stripChars (ws ++ l) = stripChars l := by
  unfold stripChars
  rw [List.dropWhile_append_of_pos h]

/-- Stripping ignores an all-whitespace suffix. -/
theorem stripChars_trailing_spaces {ws : List Char} (l : List Char)
    (h : ∀ c ∈ ws, isSpaceChar c = true) :
    stripChars (l ++ ws) = stripChars l := by
  unfold stripChars dropTrailingSpaces
  rw [List.dropWhile_append]
  by_cases hl : (l.dropWhile isSpaceChar).isEmpty
  · rw [if_pos hl]
    have hws : ws.dropWhile isSpaceChar = [] :=
      List.dropWhile_eq_nil_iff.mpr h
    have hl' : l.dropWhile isSpaceChar = [] := by
      cases he : l.dropWhile isSpaceChar with
      | nil => rfl
      | cons x xs => rw [he] at hl; simp [List.isEmpty] at hl
    rw [hws, hl']
  · rw [if_neg hl, List.reverse_append,
      List.dropWhile_append_of_pos (by intro c hc; exact h c (List.mem_reverse.mp hc))]

/-- Every character list is an all-whitespace prefix, its stripped core,
and an all-whitespace suffix. -/
theorem stripChars_decomp (l : List Char) :
    ∃ ws1 ws2, (∀ c ∈ ws1, isSpaceChar c = true) ∧
      (∀ c ∈ ws2, isSpaceChar c = true) ∧
      l = ws1 ++ stripChars l ++ ws2 := by
  refine ⟨l.takeWhile isSpaceChar,
    ((l.dropWhile isSpaceChar).reverse.takeWhile isSpaceChar).reverse,
    fun c hc => List.mem_takeWhile_imp hc,
    fun c hc => List.mem_takeWhile_imp (List.mem_reverse.mp hc), ?_⟩
  conv_lhs => rw [← List.takeWhile_append_dropWhile (p := isSpaceChar) (l := l)]
  rw [List.append_assoc]
  congr 1
  unfold stripChars dropTrailingSpaces
  conv_lhs =>
    rw [← List.reverse_reverse (l.dropWhile isSpaceChar),
      ← List.takeWhile_append_dropWhile (p := isSpaceChar)
        (l := (l.dropWhile isSpaceChar).reverse)]
  rw [List.reverse_append]

/-- Splitting at the first separator walks through a separator-free
prefix. -/
theorem splitFirstChars_over_sep_free {sep : Char} {a : List Char}
    (b : List Char) (h : ∀ c ∈ a, (c == sep) = false) :
    splitFirstChars sep (a ++ b) =
      (a ++ (splitFirstChars sep b).1, (splitFirstChars sep b).2) := by
  induction a with
  | nil => simp
  | cons c a' ih =>
    have hc : ¬(c = sep) := by
      have := h c (List.mem_cons_self c a')
      exact fun he => by simp [he] at this
    simp only [List.cons_append, splitFirstChars, if_neg hc, List.append_eq]
    rw [ih (fun x hx => h x (List.mem_cons_of_mem c hx))]

/-- Splitting at the first separator never looks past a part that
contains the separator. -/
theorem splitFirstChars_over_sep_containing {a : List Char} (b : List Char)
    (h : hasEq a = true) :
    splitFirstChars '=' (a ++ b) =
      ((splitFirstChars '=' a).1, (splitFirstChars '=' a).2 ++ b) := by
  induction a with
  | nil => simp [hasEq] at h
  | cons c a' ih =>
    by_cases hc : c = '='
    · subst hc; simp [splitFirstChars]
    · have h' : hasEq a' = true := by
        simp only [hasEq, List.any_cons] at h
        rcases Bool.or_eq_true_iff.mp h with h1 | h1
        · exact absurd (by simpa using h1) hc
        · exact h1
      simp only [List.cons_append, splitFirstChars, if_neg hc, List.append_eq]
      rw [ih h']

/-- `'='`-membership is unchanged by stripping whitespace. -/
theorem hasEq_stripChars (l : List Char) :
    hasEq (stripChars l) = hasEq l := by
  obtain ⟨ws1, ws2, h1, h2, hdec⟩ := stripChars_decomp l
  conv_rhs => rw [hdec]
  rw [hasEq_append, hasEq_append, hasEq_all_space h1, hasEq_all_space h2]
  simp

/-- An empty stripped core means the token holds no `'='`. -/
theorem hasEq_eq_false_of_strip_nil {l : List Char}
    (h : stripChars l = []) : hasEq l = false := by
  rw [← hasEq_stripChars, h]
  rfl

/-- Trimming before or after splitting on the first `'='` gives the same
trimmed key and value parts. -/
theorem strip_split_comm (l : List Char) (h : hasEq l = true) :
    stripChars (splitFirstChars '=' l).1 =
      stripChars (splitFirstChars '=' (stripChars l)).1 ∧
    stripChars (splitFirstChars '=' l).2 =
      stripChars (splitFirstChars '=' (stripChars l)).2 := by
  obtain ⟨ws1, ws2, h1, h2, hdec⟩ := stripChars_decomp l
  have hs : hasEq (stripChars l) = true := by rw [hasEq_stripChars]; exact h
  have e1 : splitFirstChars '=' l =
      (ws1 ++ (splitFirstChars '=' (stripChars l ++ ws2)).1,
       (splitFirstChars '=' (stripChars l ++ ws2)).2) := by
    conv_lhs => rw [hdec, List.append_assoc]
    exact splitFirstChars_over_sep_free _
      (fun c hc => space_ne_eqchar (h1 c hc))
  have e2 : splitFirstChars '=' (stripChars l ++ ws2) =
      ((splitFirstChars '=' (stripChars l)).1,
       (splitFirstChars '=' (stripChars l)).2 ++ ws2) :=
    splitFirstChars_over_sep_containing _ hs
  rw [e1, e2]
  exact ⟨stripChars_leading_spaces _ h1, stripChars_trailing_spaces _ h2⟩

/-- The token loop of `parse_metrics_tokens` is the `filterMap` of its
per-token step. -/
theorem parse_metrics_tokens_eq_filterMap (toReal : String → Option ℚ)
    (l : List String) :
    parse_metrics_tokens toReal l = l.filterMap (codeTokenPair toReal) := by
  induction l with
  | nil => rfl
  | cons t rest ih =>
    by_cases h1 : pyStrip t = ""
    · simp [parse_metrics_tokens, codeTokenPair, h1, ih, List.filterMap_cons]
    · by_cases h2 : hasEq (pyStrip t).data = true
      · cases hv : toReal (pyStrip (splitFirstEq (pyStrip t)).2) with
        | none =>
          simp [parse_metrics_tokens, codeTokenPair, h1, h2, hv, ih,
            List.filterMap_cons]
        | some x =>
          simp [parse_metrics_tokens, codeTokenPair, h1, h2, hv, ih,
            List.filterMap_cons]
      · cases hv : toReal (pyStrip t) with
        | none =>
          simp [parse_metrics_tokens, codeTokenPair, h1, h2, hv, ih,
            List.filterMap_cons]
        | some x =>
          simp [parse_metrics_tokens, codeTokenPair, h1, h2, hv, ih,
            List.filterMap_cons]

/-- The per-token step of the code agrees with the spec reading of a
token (trim before vs after the first-`=` split), provided the abstract
`float` parser rejects the empty string the way Python `float("")` does. -/
theorem codeTokenPair_eq_spec (toReal : String → Option ℚ)
    (h0 : toReal "" = none) (t : String) :
    codeTokenPair toReal t = specTokenPair toReal t := by
  unfold codeTokenPair specTokenPair
  by_cases hnil : stripChars t.data = []
  · have hq : hasEq t.data = false := hasEq_eq_false_of_strip_nil hnil
    have hps : pyStrip t = "" := by unfold pyStrip; rw [hnil]; rfl
    simp [hps, hq, h0]
  · have hps : ¬(pyStrip t = "") := by
      intro he
      apply hnil
      simpa [pyStrip, ofChars] using congrArg String.data he
    have hdata : (pyStrip t).data = stripChars t.data := rfl
    by_cases hq : hasEq t.data = true
    · have hqs : hasEq (pyStrip t).data = true := by
        rw [hdata, hasEq_stripChars]; exact hq
      obtain ⟨e1, e2⟩ := strip_split_comm t.data hq
      rw [if_neg hps, if_pos hqs, if_pos hq]
      show (toReal (ofChars (stripChars
            (splitFirstChars '=' (stripChars t.data)).2))).map
          (fun x => (ofChars (stripChars
            (splitFirstChars '=' (stripChars t.data)).1), x))
        = (toReal (ofChars (stripChars (splitFirstChars '=' t.data).2))).map
          (fun x => (ofChars (stripChars (splitFirstChars '=' t.data).1), x))
      rw [← e1, ← e2]
    · have hqf : hasEq t.data = false := by simpa using hq
      have hqs : hasEq (pyStrip t).data = false := by
        rw [hdata, hasEq_stripChars]; exact hqf
      rw [if_neg hps, if_neg (by simp [hqs]), if_neg (by simp [hqf])]

/-! ## Claim C5: monitor output parser -/

/-- C5: for every captured stdout, the emitted pairs are exactly those the
spec describes — last `OUT=` line, tab-split, first-`=` split with both
sides trimmed when the value parses, `("value", n)` for bare numbers, all
other tokens dropped — and no pairs are emitted when no line starts with
`OUT=`.  The abstract `float` parser only has to reject `""`. -/
theorem monitor_parser_matches_spec (toReal : String → Option ℚ)
    (h0 : toReal "" = none) (stdout_text : String) :
    monitor_pairs toReal stdout_text = monitor_pairs_spec toReal stdout_text ∧
    ((pyLines stdout_text).all (fun ln => !isOutLine ln) = true →
      monitor_pairs toReal stdout_text = []) := by
  have hf : codeTokenPair toReal = specTokenPair toReal :=
    funext (codeTokenPair_eq_spec toReal h0)
  constructor
  · unfold monitor_pairs monitor_pairs_spec parse_out_line spec_select_payload
    cases hl : ((pyLines stdout_text).filter isOutLine).getLast? with
    | none => simp only [hl]; rfl
    | some last =>
      simp only [hl]
      by_cases hp : ofChars (last.data.drop 4) = ""
      · rw [if_pos hp, hp]
        show parse_metrics_tokens toReal [] =
          (splitOnChar '\t' "").filterMap (specTokenPair toReal)
        rw [show splitOnChar '\t' "" = [""] from rfl]
        simp [parse_metrics_tokens, List.filterMap, specTokenPair, hasEq, h0,
          show pyStrip "" = "" from rfl]
      · rw [if_neg hp, parse_metrics_tokens_eq_filterMap, hf]
  · intro hall
    have hfil : (pyLines stdout_text).filter isOutLine = [] := by
      rw [List.filter_eq_nil_iff]
      intro a ha
      have := List.all_eq_true.mp hall a ha
      simp at this
      simp [this]
    unfold monitor_pairs parse_out_line
    simp only [hfil]
    rfl

/-- C5 witness: a two-metric `OUT=` line under a concrete number
parser. -/
theorem monitor_parser_matches_spec_w :
    monitor_pairs
        (fun s => if s = "23.5" then some (47/2) else
          if s = "67.2" then some (336/5) else none)
        "free text\nOUT=cpu=23.5\ttemp=67.2\tjunk\n" =
      monitor_pairs_spec
        (fun s => if s = "23.5" then some (47/2) else
          if s = "67.2" then some (336/5) else none)
        "free text\nOUT=cpu=23.5\ttemp=67.2\tjunk\n" :=
  (monitor_parser_matches_spec _ (by decide) _).1

/-! ## Claim C9: parser edge cases -/

/-- C9: a last `OUT=` line with an empty payload emits no pairs even
though the line matched, and a token of the shape `=<number>` is not
discarded but yields a pair with the empty string as key. -/
theorem monitor_parser_edge_cases :
    (∀ (toReal : String → Option ℚ) (stdout_text : String),
        spec_select_payload stdout_text = some "" →
        monitor_pairs toReal stdout_text = []) ∧
    (∀ (toReal : String → Option ℚ) (x : ℚ), toReal "42" = some x →
        parse_metrics_tokens toReal ["=42"] = [("", x)]) := by
  constructor
  · intro toReal s h
    unfold spec_select_payload at h
    unfold monitor_pairs parse_out_line
    cases hl : ((pyLines s).filter isOutLine).getLast? with
    | none =>
      simp only [hl] at h
      exact Option.noConfusion h
    | some last =>
      simp only [hl, Option.some.injEq] at h
      simp only [hl]
      rw [if_pos h]
      rfl
  · intro toReal x h
    rw [parse_metrics_tokens_eq_filterMap]
    have hc : codeTokenPair toReal "=42" =
        (toReal "42").map (fun y => (("" : String), y)) := rfl
    simp [List.filterMap, hc, h]

/-- C9 witness: the empty payload `OUT=` and the token `=42`. -/
theorem monitor_parser_edge_cases_w :
    monitor_pairs (fun _ => none) "OUT=" = [] ∧
    parse_metrics_tokens (fun s => if s = "42" then some 42 else none)
        ["=42"] = [("", 42)] :=
  ⟨monitor_parser_edge_cases.1 (fun _ => none) "OUT=" (by decide),
   monitor_parser_edge_cases.2 (fun s => if s = "42" then some 42 else none)
     42 (by decide)⟩

/-! ## Claim C4: supervisor timeout exit codes -/

/-- C4 counterexample: a child that exits with status `0` during the
SIGTERM grace window is reported with `exit_code = 124`, not with its
actual (known) exit status `0`, because `p.returncode or 124` treats a
zero return code as falsy. -/
theorem run_command_grace_zero_exit_code :
    run_command_killpg (.termExit 0) "" "" =
      { exit_code := 124, stdout := "", stderr := "", timed_out := true } ∧
    (0 : Int) ≠ 124 := by decide

/-- C4 (amended): every timed-out command has `timed_out = true`; on the
TERM path the exit code is the child's actual exit status when that status
is nonzero and `124` when the child exited with status zero; on the KILL
path it is `137`. -/
theorem run_command_timeout_codes (rc : Int) (out err : String) :
    (run_command_killpg (.termExit rc) out err).timed_out = true ∧
    (run_command_killpg .killed out err).timed_out = true ∧
    (rc ≠ 0 → (run_command_killpg (.termExit rc) out err).exit_code = rc) ∧
    (rc = 0 → (run_command_killpg (.termExit rc) out err).exit_code = 124) ∧
    (run_command_killpg .killed out err).exit_code = 137 := by
  refine ⟨rfl, rfl, ?_, ?_, rfl⟩ <;> intro h <;>
    simp [run_command_killpg, pyOrInt, h]

/-- C4 witness: a child exiting with status 5 in the grace window. -/
theorem run_command_timeout_codes_w :
    (run_command_killpg (.termExit 5) "" "").exit_code = 5 :=
  (run_command_timeout_codes 5 "" "").2.2.1 (by decide)

/-! ## Claims C8 and C10: holiday gate -/

/-- C8: the gate always allows under policy NONE; with the oracle
available it allows iff today is a workday (CN_WORKDAY_ONLY), iff today is
not a holiday (SKIP_CN_HOLIDAY), iff today is not a workday
(SKIP_CN_WORKDAY); and it always allows when the oracle is unavailable. -/
theorem holiday_gate_policies (wk hd : Bool) (p : String) :
    holiday_allowed "NONE" (some (wk, hd)) = true ∧
    holiday_allowed "CN_WORKDAY_ONLY" (some (wk, hd)) = wk ∧
    holiday_allowed "SKIP_CN_HOLIDAY" (some (wk, hd)) = !hd ∧
    holiday_allowed "SKIP_CN_WORKDAY" (some (wk, hd)) = !wk ∧
    holiday_allowed p none = true := by
  refine ⟨?_, ?_, ?_, ?_, ?_⟩
  · cases wk <;> cases hd <;> decide
  · cases wk <;> cases hd <;> decide
  · cases wk <;> cases hd <;> decide
  · cases wk <;> cases hd <;> decide
  · by_cases h : p = "NONE" <;> simp [holiday_allowed, h]

/-- C10: any policy string outside the four documented values leaves the
firing allowed, whatever the oracle says. -/
theorem holiday_gate_unknown_policy (p : String)
    (oracle : Option (Bool × Bool))
    (h : p ∉ (["NONE", "CN_WORKDAY_ONLY", "SKIP_CN_HOLIDAY",
      "SKIP_CN_WORKDAY"] : List String)) :
    holiday_allowed p oracle = true := by
  simp only [List.mem_cons, List.not_mem_nil, or_false, not_or] at h
  obtain ⟨h1, h2, h3, h4⟩ := h
  unfold holiday_allowed
  cases oracle with
  | none => simp [h1]
  | some pr => simp [h1, h2, h3, h4]

/-- C10 witness: a misspelled policy with the oracle reporting a
workday. -/
theorem holiday_gate_unknown_policy_w :
    holiday_allowed "CN_WORKDAY" (some (true, false)) = true :=
  holiday_gate_unknown_policy "CN_WORKDAY" (some (true, false)) (by decide)

/-! ## Claim C7: alert suppression engine -/

/-- C7: a call of `maybe_send_alert` is suppressed exactly when an
AlertState row for the (task, kind) pair has `last_sent_at` inside the
suppression window; exactly one Alert row is always appended, carrying
that flag; some AlertState row for the pair ends up with
`last_sent_at = now` (created if absent); and the push notifier is
invoked iff the attempt was not suppressed. -/
theorem alert_engine_behavior (w : World) (sec now : Int) (task : TaskRow)
    (k msg : String)
    (hnd : (w.alertStates.map (fun s => (s.taskId, s.alertType))).Nodup) :
    (∃ a, (maybe_send_alert w sec now task k msg).1.alerts = w.alerts ++ [a] ∧
      a.taskId = task.id ∧ a.alertType = k ∧ a.message = msg ∧
      (a.suppressed = 1 ↔ suppressedSpec w.alertStates task.id k now sec)) ∧
    (∃ st ∈ (maybe_send_alert w sec now task k msg).1.alertStates,
      st.taskId = task.id ∧ st.alertType = k ∧ st.lastSentAt = some now) ∧
    ((maybe_send_alert w sec now task k msg).2 = true ↔
      ¬ suppressedSpec w.alertStates task.id k now sec) ∧
    ((maybe_send_alert w sec now task k msg).2 = true →
      (maybe_send_alert w sec now task k msg).1.pushes = w.pushes ++ [msg]) ∧
    ((maybe_send_alert w sec now task k msg).2 = false →
      (maybe_send_alert w sec now task k msg).1.pushes = w.pushes) := by
  cases hfind : w.alertStates.find?
      (fun s => s.taskId == task.id && s.alertType == k) with
  | none =>
    have hns : ¬ suppressedSpec w.alertStates task.id k now sec := by
      rintro ⟨st, hmem, h1, h2, _⟩
      have hnp := List.find?_eq_none.mp hfind st hmem
      simp [h1, h2] at hnp
    have hred : maybe_send_alert w sec now task k msg =
        ({ w with
            alertStates := w.alertStates ++ [⟨task.id, k, some now⟩],
            alerts := w.alerts ++ [⟨task.id, k, msg, 0⟩],
            pushes := w.pushes ++ [msg] }, true) := by
      simp [maybe_send_alert, hfind]
    rw [hred]
    refine ⟨⟨⟨task.id, k, msg, 0⟩, rfl, rfl, rfl, rfl, by simp [hns]⟩,
      ⟨⟨task.id, k, some now⟩, by simp, rfl, rfl, rfl⟩,
      by simp [hns], fun _ => rfl, fun h => by simp at h⟩
  | some st =>
    have hP := List.find?_some hfind
    have hmem := List.mem_of_find?_eq_some hfind
    simp only [Bool.and_eq_true, beq_iff_eq] at hP
    obtain ⟨h1, h2⟩ := hP
    cases hr : recent st.lastSentAt now sec with
    | true =>
      have hsup : suppressedSpec w.alertStates task.id k now sec :=
        ⟨st, hmem, h1, h2, hr⟩
      have hred : maybe_send_alert w sec now task k msg =
          ({ w with
              alertStates := w.alertStates.map (fun s =>
                if s.taskId == task.id && s.alertType == k then
                  { s with lastSentAt := some now }
                else s),
              alerts := w.alerts ++ [⟨task.id, k, msg, 1⟩] }, false) := by
        simp [maybe_send_alert, hfind, hr]
      rw [hred]
      refine ⟨⟨⟨task.id, k, msg, 1⟩, rfl, rfl, rfl, rfl, by simp [hsup]⟩,
        ⟨{ st with lastSentAt := some now }, ?_, h1, h2, rfl⟩,
        by simp [hsup], fun h => by simp at h, fun _ => rfl⟩
      have : (fun s => if s.taskId == task.id && s.alertType == k then
          { s with lastSentAt := some now } else s) st =
          { st with lastSentAt := some now } := by
        simp [h1, h2]
      exact this ▸ List.mem_map_of_mem _ hmem
    | false =>
      have hns : ¬ suppressedSpec w.alertStates task.id k now sec := by
        rintro ⟨st2, hmem2, g1, g2, g3⟩
        have hst : st2 = st := key_unique (fun s => (s.taskId, s.alertType))
          hnd hmem2 hmem (by simp only []; rw [g1, g2, h1, h2])
        rw [hst] at g3
        rw [hr] at g3
        exact Bool.noConfusion g3
      have hred : maybe_send_alert w sec now task k msg =
          ({ w with
              alertStates := w.alertStates.map (fun s =>
                if s.taskId == task.id && s.alertType == k then
                  { s with lastSentAt := some now }
                else s),
              alerts := w.alerts ++ [⟨task.id, k, msg, 0⟩],
              pushes := w.pushes ++ [msg] }, true) := by
        simp [maybe_send_alert, hfind, hr]
      rw [hred]
      refine ⟨⟨⟨task.id, k, msg, 0⟩, rfl, rfl, rfl, rfl, by simp [hns]⟩,
        ⟨{ st with lastSentAt := some now }, ?_, h1, h2, rfl⟩,
        by simp [hns], fun _ => rfl, fun h => by simp at h⟩
      have : (fun s => if s.taskId == task.id && s.alertType == k then
          { s with lastSentAt := some now } else s) st =
          { st with lastSentAt := some now } := by
        simp [h1, h2]
      exact this ▸ List.mem_map_of_mem _ hmem

/-- C7 witness: a second alert attempt inside the suppression window is
recorded but does not invoke the notifier. -/
theorem alert_engine_behavior_w :
    (maybe_send_alert
        { runs := [], tasks := [], triggers := [],
          alertStates := [⟨4, "exec_failed", some 100⟩], alerts := [],
          csvRows := [], pushes := [], supCalls := 0, nextRunId := 1 }
        900 200
        { id := 4, name := "t", type := "schedule", jobId := none,
          commandTemplate := "true", enabled := 1 }
        "exec_failed" "boom").2 = true ↔
      ¬ suppressedSpec [⟨4, "exec_failed", some 100⟩] 4 "exec_failed" 200 900 :=
  (alert_engine_behavior
    { runs := [], tasks := [], triggers := [],
      alertStates := [⟨4, "exec_failed", some 100⟩], alerts := [],
      csvRows := [], pushes := [], supCalls := 0, nextRunId := 1 }
    900 200
    { id := 4, name := "t", type := "schedule", jobId := none,
      commandTemplate := "true", enabled := 1 }
    "exec_failed" "boom" (by decide)).2.2.1

/-! ## Claim C1: atomic claim of a PENDING run -/

/-- C1: when the run row is not PENDING at entry, `execute_one_run`
abandons with the state untouched; when it is PENDING, the conditional
update turns exactly that row RUNNING with `started_at` equal to the
claim time, leaving every other row unchanged. -/
theorem run_claim_conditional (env : EngineEnv) (n1 : Int) (rest : List Int)
    (res : ExecResult) (w : World) (rid : Nat) (r : RunRow)
    (hnd : (w.runs.map RunRow.id).Nodup)
    (hr : findRun w.runs rid = some r) :
    (r.status ≠ "PENDING" →
      execute_one_run env (n1 :: rest) res w rid = w) ∧
    (r.status = "PENDING" →
      findRun (claimStep w.runs rid n1).1 rid = some (claimUpd n1 r) ∧
      (claimStep w.runs rid n1).1.length = w.runs.length ∧
      (∀ x ∈ w.runs, x.id ≠ rid → x ∈ (claimStep w.runs rid n1).1) ∧
      (∀ y ∈ (claimStep w.runs rid n1).1, y.id ≠ rid → y ∈ w.runs)) := by
  constructor
  · intro hst
    have h0 : (claimStep w.runs rid n1).2 = 0 :=
      claimStep_count_zero hnd hr hst n1
    show (if (claimStep w.runs rid n1).2 = 0 then w
      else execute_claimed env rest res
        { w with runs := (claimStep w.runs rid n1).1 } rid) = w
    rw [if_pos h0]
  · intro hst
    refine ⟨?_, ?_, (claimStep_mem_other w.runs rid n1).1,
      (claimStep_mem_other w.runs rid n1).2⟩
    · rw [findRun_claimStep, hr]
      have hb : (r.id == rid) = true := findRun_beq hr
      have hsb : (r.status == "PENDING") = true := by
        rw [hst]
        decide
      show some (if r.id == rid && r.status == "PENDING" then claimUpd n1 r
        else r) = some (claimUpd n1 r)
      rw [hb, hsb]
      simp
    · unfold claimStep
      exact List.length_map _ _

/-- C1 witness: claiming a single PENDING run at time 7. -/
theorem run_claim_conditional_w :
    findRun (claimStep [runW 1 "PENDING" none] 1 7).1 1 =
      some (claimUpd 7 (runW 1 "PENDING" none)) :=
  ((run_claim_conditional envW 7 [] resW
    (worldW [runW 1 "PENDING" none] []) 1 (runW 1 "PENDING" none)
    (by decide) (by decide)).2 (by decide)).1

/-! ## Claim C2: reentrancy mutex -/

/-- C2: a claimed run whose task exists and is enabled, while another run
of the same task is still RUNNING at the mutex check (it survives the
zombie sweep), is failed with exit code 99 and the non-reentrant message,
gets its `finished_at` set, a `reentry` alert row is recorded, and the
supervisor is never invoked for this run. -/
theorem reentry_mutex_blocks (env : EngineEnv) (n1 n2 n3 n4 n5 : Int)
    (res : ExecResult) (w : World) (rid : Nat) (r r2 : RunRow)
    (task : TaskRow)
    (hr : findRun w.runs rid = some r)
    (hpend : r.status = "PENDING")
    (htask : w.tasks.find? (fun t => t.id == r.taskId) = some task)
    (hen : task.enabled = 1)
    (h2mem : r2 ∈ w.runs) (h2id : r2.id ≠ rid)
    (h2task : r2.taskId = r.taskId) (h2run : r2.status = "RUNNING")
    (h2live : ∀ t2, r2.startedAt = some t2 → ¬(t2 < n2 - env.zombieSec)) :
    findRun (execute_one_run env [n1, n2, n3, n4, n5] res w rid).runs rid =
      some { r with
        status := "FAILED", startedAt := some n1,
        finishedAt := some n4, exitCode := some 99,
        errorMessage := some "Task is already RUNNING (non-reentrant)." } ∧
    (∃ fl, (execute_one_run env [n1, n2, n3, n4, n5] res w rid).alerts =
      w.alerts ++
        [⟨task.id, "reentry", task.name ++ ": reentry blocked", fl⟩]) ∧
    (execute_one_run env [n1, n2, n3, n4, n5] res w rid).supCalls =
      w.supCalls := by
  have hc : ¬((claimStep w.runs rid n1).2 = 0) :=
    claimStep_count_pos hr hpend n1
  have hfind1 : findRun (claimStep w.runs rid n1).1 rid =
      some (claimUpd n1 r) := by
    rw [findRun_claimStep, hr]
    have hb := findRun_beq hr
    have hsb : (r.status == "PENDING") = true := by rw [hpend]; decide
    show some (if r.id == rid && r.status == "PENDING" then claimUpd n1 r
      else r) = _
    rw [hb, hsb]
    simp
  have m1 : r2 ∈ (claimStep w.runs rid n1).1 :=
    (claimStep_mem_other w.runs rid n1).1 r2 h2mem h2id
  have hhit : zombieHit (n2 - env.zombieSec) r2 = false := by
    unfold zombieHit
    cases hs : r2.startedAt with
    | none => simp
    | some t2 =>
      have hl := h2live t2 hs
      simp [decide_eq_false hl]
  have m2 : r2 ∈ zombieSweep (claimStep w.runs rid n1).1
      (n2 - env.zombieSec) n3 := by
    unfold zombieSweep
    have hmm := List.mem_map_of_mem
      (fun x => if zombieHit (n2 - env.zombieSec) x then zombieUpd n3 x
        else x) m1
    have heq : (fun x => if zombieHit (n2 - env.zombieSec) x then
        zombieUpd n3 x else x) r2 = r2 := by
      simp [hhit]
    rw [heq] at hmm
    exact hmm
  have htid : task.id = r.taskId := by
    have hp := find?_pred htask
    exact beq_iff_eq.mp hp
  have hmutex : acquire_task_mutex
      (zombieSweep (claimStep w.runs rid n1).1 (n2 - env.zombieSec) n3)
      task.id rid = false := by
    unfold acquire_task_mutex
    have e1 : (r2.taskId == task.id) = true := by
      rw [beq_iff_eq, h2task, htid]
    have e2 : (r2.status == "RUNNING") = true := by rw [h2run]; decide
    have e3 : (r2.id != rid) = true := by
      simp [bne, beq_eq_false_iff_ne.mpr h2id]
    have hany : (zombieSweep (claimStep w.runs rid n1).1
        (n2 - env.zombieSec) n3).any
        (fun x => x.taskId == task.id && x.status == "RUNNING" &&
          x.id != rid) = true := by
      refine List.any_eq_true.mpr ⟨r2, m2, ?_⟩
      show (r2.taskId == task.id && r2.status == "RUNNING" &&
        r2.id != rid) = true
      rw [e1, e2, e3]
      rfl
    rw [hany]
    rfl
  have hstep : execute_one_run env [n1, n2, n3, n4, n5] res w rid =
      (maybe_send_alert
        { w with
          runs := updateRun
            (zombieSweep (claimStep w.runs rid n1).1
              (n2 - env.zombieSec) n3) rid (reentryUpd n4) }
        env.suppressSec n5 task "reentry"
        (task.name ++ ": reentry blocked")).1 := by
    show (if (claimStep w.runs rid n1).2 = 0 then w
      else execute_claimed env [n2, n3, n4, n5] res
        { w with runs := (claimStep w.runs rid n1).1 } rid) = _
    rw [if_neg hc]
    unfold execute_claimed
    simp only [hfind1, tick, claimUpd, htask, hen, hmutex, bne_self_eq_false,
      Bool.false_eq_true, if_false, Bool.not_false, if_true]
  refine ⟨?_, ?_, ?_⟩
  · rw [hstep, maybe_send_alert_runs]
    show findRun (updateRun
      (zombieSweep (claimStep w.runs rid n1).1 (n2 - env.zombieSec) n3)
      rid (reentryUpd n4)) rid = _
    rw [findRun_updateRun _ _ (reentryUpd n4) (fun x => rfl),
      findRun_zombieSweep, hfind1]
    have hcollapse : ∀ c : RunRow,
        reentryUpd n4 (if zombieHit (n2 - env.zombieSec) c then
          zombieUpd n3 c else c) = reentryUpd n4 c := by
      intro c
      by_cases hzh : zombieHit (n2 - env.zombieSec) c = true
      · rw [if_pos hzh]
        rfl
      · rw [if_neg hzh]
    show some (reentryUpd n4 (if zombieHit (n2 - env.zombieSec)
      (claimUpd n1 r) then zombieUpd n3 (claimUpd n1 r)
      else claimUpd n1 r)) = _
    rw [hcollapse (claimUpd n1 r)]
    rfl
  · obtain ⟨fl, hal⟩ := maybe_send_alert_alerts
      { w with
        runs := updateRun
          (zombieSweep (claimStep w.runs rid n1).1
            (n2 - env.zombieSec) n3) rid (reentryUpd n4) }
      env.suppressSec n5 task "reentry" (task.name ++ ": reentry blocked")
    exact ⟨fl, by rw [hstep, hal]⟩
  · rw [hstep, maybe_send_alert_supCalls]

/-- C2 witness: run 1 is claimed while run 2 of the same task is RUNNING
and fresh; the engine fails run 1 with exit code 99 without a supervisor
call. -/
theorem reentry_mutex_blocks_w :
    (execute_one_run envW [100, 100, 100, 100, 100] resW
      (worldW [runW 1 "PENDING" none, runW 2 "RUNNING" (some 50)]
        [taskW 1 1 "schedule"]) 1).supCalls =
      (worldW [runW 1 "PENDING" none, runW 2 "RUNNING" (some 50)]
        [taskW 1 1 "schedule"]).supCalls :=
  (reentry_mutex_blocks envW 100 100 100 100 100 resW
    (worldW [runW 1 "PENDING" none, runW 2 "RUNNING" (some 50)]
      [taskW 1 1 "schedule"]) 1
    (runW 1 "PENDING" none) (runW 2 "RUNNING" (some 50))
    (taskW 1 1 "schedule")
    (by decide) (by decide) (by decide) (by decide)
    (by decide) (by decide) (by decide) (by decide)
    (by intro t2 ht; injection ht with ht; rw [← ht]; decide)).2.2

/-! ## Claim C3: monitor cleanup -/

/-- C3 counterexample: a run of a disabled monitor task is finished as
SKIPPED by the task gate — its row remains in the run store although its
terminal status is neither FAILED nor TIMEOUT, so "a row remains iff the
terminal status is FAILED or TIMEOUT" fails. -/
theorem monitor_skip_retains_row :
    ((execute_one_run envW [10, 11, 12, 13] resW
        (worldW [runW 1 "PENDING" none] [taskW 1 0 "monitor"]) 1).runs.map
      RunRow.status) = ["SKIPPED"] ∧
    ("SKIPPED" : String) ≠ "FAILED" ∧
    ("SKIPPED" : String) ≠ "TIMEOUT" := by
  decide

/-- C3 (amended): among monitor runs that reach the execution step the
row is deleted exactly when the terminal status is SUCCESS (so retained
rows are exactly the FAILED and TIMEOUT ones); a deleted SUCCESS run's
parsed metrics are all persisted to the per-task CSV; SKIPPED monitor
runs (disabled or missing task) also retain their rows; and runs of
non-monitor tasks are never deleted by the engine. -/
theorem monitor_cleanup_amended (env : EngineEnv) (clock : List Int)
    (res : ExecResult) (w : World) (rid : Nat) (task : TaskRow)
    (r : RunRow) (hr : findRun w.runs rid = some r) :
    ((findRun (execute_single env clock res w rid task).runs rid = none) ↔
      (task.type = "monitor" ∧ jobResolves env.jobs task = true ∧
        res.timed_out = false ∧ res.exit_code = 0)) ∧
    (task.type = "monitor" →
      ∀ r', findRun (execute_single env clock res w rid task).runs rid
          = some r' → r'.status = "FAILED" ∨ r'.status = "TIMEOUT") ∧
    (task.type = "monitor" → jobResolves env.jobs task = true →
      ∀ p ∈ parse_metrics_tokens env.toReal (parse_out_line res.stdout),
        (task.id, task.name, p.1, p.2) ∈
          (execute_single env clock res w rid task).csvRows) ∧
    (task.type ≠ "monitor" →
      findRun (execute_single env clock res w rid task).runs rid ≠ none) ∧
    (∀ task', w.tasks.find? (fun t => t.id == r.taskId) = some task' →
      task'.type ≠ "monitor" →
      findRun (execute_one_run env clock res w rid).runs rid ≠ none) := by
  refine ⟨?_, ?_, ?_, ?_, ?_⟩
  · constructor
    · intro hnone
      by_cases hres : jobResolves env.jobs task = true
      · by_cases hdel : (task.type == "monitor" &&
            classify_status res == "SUCCESS") = true
        · obtain ⟨a, b, c⟩ := (cleanup_guard_iff res task).mp hdel
          exact ⟨a, hres, b, c⟩
        · obtain ⟨r', hr', _⟩ := execute_single_exec_row env clock res w
            rid task r hr (Bool.eq_false_iff.mpr hdel) hres
          rw [hr'] at hnone
          exact Option.noConfusion hnone
      · cases hj : task.jobId with
        | none =>
          unfold jobResolves at hres
          rw [hj] at hres
          exact absurd rfl hres
        | some jid =>
          cases hl : env.jobs jid with
          | some a =>
            unfold jobResolves at hres
            rw [hj] at hres
            dsimp only at hres
            rw [hl] at hres
            exact absurd rfl hres
          | none =>
            rw [execute_single_missing_row env clock res w rid task r jid
              hr hj hl] at hnone
            exact Option.noConfusion hnone
    · rintro ⟨hm, hres, hto, hec⟩
      exact execute_single_deletes env clock res w rid task
        ((cleanup_guard_iff res task).mpr ⟨hm, hto, hec⟩) hres
  · intro hmon r' hr'
    by_cases hres : jobResolves env.jobs task = true
    · have hdel : (task.type == "monitor" &&
          classify_status res == "SUCCESS") = false := by
        cases hgb : (task.type == "monitor" &&
            classify_status res == "SUCCESS") with
        | false => rfl
        | true =>
          rw [execute_single_deletes env clock res w rid task hgb hres]
            at hr'
          exact Option.noConfusion hr'
      obtain ⟨r'', hr'', hst⟩ := execute_single_exec_row env clock res w
        rid task r hr hdel hres
      rw [hr''] at hr'
      injection hr' with he
      rw [← he, hst]
      have hmb : (task.type == "monitor") = true := by rw [hmon]; decide
      rw [hmb] at hdel
      have hns : (classify_status res == "SUCCESS") = false := by
        rw [← hdel]
        rfl
      rcases classify_status_cases res with h | h | h
      · exact Or.inr h
      · rw [h] at hns
        exact absurd hns (by decide)
      · exact Or.inl h
    · cases hj : task.jobId with
      | none =>
        unfold jobResolves at hres
        rw [hj] at hres
        exact absurd rfl hres
      | some jid =>
        cases hl : env.jobs jid with
        | some a =>
          unfold jobResolves at hres
          rw [hj] at hres
          dsimp only at hres
          rw [hl] at hres
          exact absurd rfl hres
        | none =>
          rw [execute_single_missing_row env clock res w rid task r jid
            hr hj hl] at hr'
          injection hr' with he
          rw [← he]
          exact Or.inl rfl
  · intro hmon hres p hp
    unfold execute_single
    cases hj : task.jobId with
    | none =>
      dsimp only
      exact ewr_csv env clock res w rid task hmon p hp
    | some jid =>
      dsimp only
      cases hl : env.jobs jid with
      | none =>
        unfold jobResolves at hres
        rw [hj] at hres
        dsimp only at hres
        rw [hl] at hres
        exact Bool.noConfusion hres
      | some argv =>
        dsimp only
        exact ewr_csv env clock res w rid task hmon p hp
  · intro hnm
    apply execute_single_keeps
    · rw [hr]
      rfl
    · cases hb : (task.type == "monitor") with
      | true => exact absurd (beq_iff_eq.mp hb) hnm
      | false => rfl
  · intro task' htk hnm
    exact execute_one_run_keeps_nonmonitor env clock res w rid r task'
      hr htk hnm

/-- C3 (amended) witness: a clean monitor success deletes its run row. -/
theorem monitor_cleanup_amended_w :
    findRun (execute_single envW [1, 2] resW
      (worldW [runW 1 "RUNNING" (some 5)] []) 1
      (taskW 1 1 "monitor")).runs 1 = none :=
  (monitor_cleanup_amended envW [1, 2] resW
    (worldW [runW 1 "RUNNING" (some 5)] []) 1 (taskW 1 1 "monitor")
    (runW 1 "RUNNING" (some 5)) (by decide)).1.mpr
    ⟨rfl, rfl, rfl, rfl⟩

/-! ## Claim C6: deadline trigger window -/

/-- C6: a firing of an enabled deadline trigger — holiday-allowed, task
present and enabled, config parsed to deadline `D` and a nonnegative
window of `k` days: strictly before the window opens nothing changes
(nothing enqueued, trigger stays enabled); strictly after the deadline
the trigger is disabled and nothing is enqueued; inside the window
exactly one new PENDING run for the trigger's task is enqueued. -/
theorem deadline_window_fire (env : FireEnv) (w : World) (tid : Nat)
    (t : TriggerRow) (task : TaskRow) (cfg : DeadlineCfg) (da : String)
    (D : Int)
    (ht : w.triggers.find? (fun x => x.id == tid) = some t)
    (hen : t.enabled = 1)
    (hhol : holiday_allowed t.holidayPolicy env.oracle = true)
    (htk : w.tasks.find? (fun tk => tk.id == t.taskId) = some task)
    (htask : task.enabled = 1)
    (hty : t.triggerType = "deadline")
    (hcfg : env.jsonParse (pyOrStr (t.deadlineConfig.getD "") "\x7b\x7d")
      = some cfg)
    (hda : cfg.deadline_at = some da) (hne : ¬(da = ""))
    (hD : env.parseLocalNaive da = some D)
    (hk : 0 ≤ cfg.start_before_days) :
    (env.nowLocal < D - cfg.start_before_days * 86400 →
      fire env w tid = w) ∧
    (env.nowLocal > D →
      (fire env w tid).runs = w.runs ∧
      (fire env w tid).triggers.find? (fun x => x.id == tid)
        = some { t with enabled := 0 }) ∧
    (¬(env.nowLocal < D - cfg.start_before_days * 86400) →
      ¬(env.nowLocal > D) →
      (fire env w tid).runs = w.runs ++
        [{ id := w.nextRunId, taskId := task.id, triggerId := some t.id,
           status := "PENDING", scheduledAt := env.nowUtc,
           startedAt := none, finishedAt := none, exitCode := none,
           errorMessage := none, stdoutPath := none,
           stderrPath := none }] ∧
      (fire env w tid).triggers = w.triggers) := by
  have e1 : (t.enabled != 1) = false := by rw [hen]; rfl
  have e2 : (!(holiday_allowed t.holidayPolicy env.oracle)) = false := by
    rw [hhol]
    rfl
  have e3 : (task.enabled != 1) = false := by rw [htask]; rfl
  have e4 : (t.triggerType == "deadline") = true := by rw [hty]; rfl
  have hpre : fire env w tid =
      (if env.nowLocal < D - cfg.start_before_days * 86400 then w
       else if env.nowLocal > D then
        { w with triggers := w.triggers.map (fun tr =>
            if tr.id == tid then { tr with enabled := 0 } else tr) }
       else (enqueue_run w env.nowUtc task.id (some t.id)).1) := by
    unfold fire
    rw [ht]
    dsimp only
    rw [e1]
    simp only [Bool.false_eq_true, if_false]
    rw [e2]
    simp only [Bool.false_eq_true, if_false]
    rw [htk]
    dsimp only
    rw [e3]
    simp only [Bool.false_eq_true, if_false]
    rw [e4]
    simp only [if_true]
    rw [hcfg]
    dsimp only
    rw [hda]
    dsimp only
    rw [if_neg hne, hD]
  refine ⟨?_, ?_, ?_⟩
  · intro h
    rw [hpre, if_pos h]
  · intro h
    have hns : ¬(env.nowLocal < D - cfg.start_before_days * 86400) := by
      omega
    rw [hpre, if_neg hns, if_pos h]
    refine ⟨rfl, ?_⟩
    show (w.triggers.map (fun tr =>
        if tr.id == tid then { tr with enabled := 0 } else tr)).find?
      (fun x => x.id == tid) = some { t with enabled := 0 }
    rw [find?_map_key TriggerRow.id
      (fun tr => if tr.id == tid then { tr with enabled := 0 } else tr)
      (fun x => by by_cases hb : (x.id == tid) = true <;> simp [hb]) _ tid,
      ht]
    have hb := find?_pred ht
    show some (if t.id == tid then { t with enabled := 0 } else t) = _
    rw [show (t.id == tid) = true from hb, if_pos rfl]
  · intro h1 h2
    rw [hpre, if_neg h1, if_neg h2]
    exact ⟨rfl, rfl⟩

/-- C6 witness: a firing inside the deadline window enqueues one PENDING
run. -/
theorem deadline_window_fire_w :
    (fire fireEnvW worldT 5).runs =
      worldT.runs ++
        [{ id := 100, taskId := 1, triggerId := some 5,
           status := "PENDING", scheduledAt := 777, startedAt := none,
           finishedAt := none, exitCode := none, errorMessage := none,
           stdoutPath := none, stderrPath := none }] :=
  ((deadline_window_fire fireEnvW worldT 5 trigW (taskW 1 1 "schedule")
    { deadline_at := some "D", start_before_days := 2 } "D" 1000000
    (by decide) (by decide) (by decide) (by decide) (by decide)
    (by decide) (by decide) (by decide) (by decide) (by decide)
    (by decide)).2.2 (by decide) (by decide)).1

end Everping
